import Mathlib

/-!
Verification of the cursor module of the termion terminal library.

The module has two parts:
* pure escape-sequence formatters (Goto, Left, Right, Up, Down, Hide, Show,
  Save, Restore), each rendering a fixed CSI string from its numeric fields;
* the cursor-position query protocol: write the query bytes ESC [ 6 n to the
  output sink, flush, then drive a four-state machine (Norm, Esc, Csi, Osc)
  over the raw input bytes until an R-terminated CSI body is seen.

Bytes are modelled as natural numbers (u8 values), u16 fields as natural
numbers bounded by 65535 in the theorems, the fallible byte source as a list
of Except values, and Rust io errors and the "Cursor position not found"
error as the two constructors of CursorError.
-/

namespace Termion

/-- The bytes of an ASCII string literal, used to build concrete inputs. -/
def strBytes (s : String) : List Nat := s.data.map Char.toNat

/-- An output sink modelling the Rust Write trait: bytes written but not yet
flushed sit in the buffer, flushing moves them to the flushed list. -/
structure Sink where
  buffer : List Nat
  flushed : List Nat
deriving DecidableEq

/-- The write operation of the sink: append bytes to the buffer. -/
def Sink.write (w : Sink) (bs : List Nat) : Sink :=
  ⟨w.buffer ++ bs, w.flushed⟩

/-- The flush operation of the sink: move all buffered bytes out. -/
def Sink.flush (w : Sink) : Sink :=
  ⟨[], w.flushed ++ w.buffer⟩

/-- The parser states of cursor_pos (enum AnsiState in src/cursor.rs). -/
inductive AnsiState
  | Norm
  | Esc
  | Csi
  | Osc
deriving DecidableEq

/-- Decimal value of a digit string, most significant digit first. -/
def digitsVal (cs : List Char) : Nat :=
  cs.foldl (fun a c => a * 10 + (c.toNat - 48)) 0

/-- Models the Rust expression s.parse::<u16>().unwrap_or(0) on the strings
the CSI accumulator can produce (these contain only decimal digits, since
the split removes every semicolon): the parse errs on an empty string, on a
non-digit character and on overflow past 65535, and unwrap_or maps the
error to 0. -/
def parseU16 (cs : List Char) : Nat :=
  if cs ≠ [] ∧ cs.all Char.isDigit ∧ digitsVal cs ≤ 65535 then digitsVal cs else 0

/-- Models Rust str::split(';') as used on the accumulator: the fields
between semicolons, in order; an empty string yields one empty field. -/
def splitSemi : List Char → List (List Char)
  | [] => [[]]
  | c :: rest =>
    match splitSemi rest with
    | [] => [[]]
    | f :: fs => if c = ';' then [] :: f :: fs else (c :: f) :: fs

/-- The R arm of the Csi state in cursor_pos: split the accumulator on
semicolons, parse the first field as y and the second as x, a missing or
unparseable field defaulting to 0, and return (x, y). -/
def parseReply (arg : List Char) : Nat × Nat :=
  let parts := splitSemi arg
  let y := parseU16 (parts.getD 0 [])
  let x := parseU16 (parts.getD 1 [])
  (x, y)

/-- One byte of the cursor_pos state machine (the match in the for loop of
src/cursor.rs): either a next state with its accumulator, or the returned
position when an R terminates a CSI body. -/
def ansiStep (s : AnsiState) (arg : List Char) (b : Nat) :
    (AnsiState × List Char) ⊕ (Nat × Nat) :=
  match s with
  | .Norm => if b = 0x1B then .inl (.Esc, arg) else .inl (.Norm, arg)
  | .Esc =>
    if b = 0x5B then .inl (.Csi, [])
    else if b = 0x5D then .inl (.Osc, arg)
    else .inl (.Norm, arg)
  | .Csi =>
    if b = 0x52 then .inr (parseReply arg)
    else if (0x41 ≤ b ∧ b ≤ 0x5A) ∨ (0x61 ≤ b ∧ b ≤ 0x7A) then .inl (.Norm, arg)
    else if (0x30 ≤ b ∧ b ≤ 0x39) ∨ b = 0x3B then .inl (.Csi, arg ++ [Char.ofNat b])
    else .inl (.Csi, arg)
  | .Osc =>
    if b = 0x07 then .inl (.Norm, arg) else .inl (.Osc, arg)

/-- The cursor_pos read loop on an error-free byte stream: run the state
machine until a position is produced (some) or the bytes run out (none). -/
def runBytes (s : AnsiState) (arg : List Char) : List Nat → Option (Nat × Nat)
  | [] => none
  | b :: rest =>
    match ansiStep s arg b with
    | .inr p => some p
    | .inl (s2, a2) => runBytes s2 a2 rest

/-- The two failure conditions of cursor_pos: a propagated io error, and the
"Cursor position not found" error built when the stream ends first. -/
inductive CursorError
  | ioError
  | notFound
deriving DecidableEq

/-- The cursor_pos read loop on a fallible byte stream: an errored read
propagates as ioError (the b_res? in the source), end of stream yields the
notFound error, and otherwise the state machine advances. -/
def cursorPosGo (s : AnsiState) (arg : List Char) :
    List (Except Unit Nat) → Except CursorError (Nat × Nat)
  | [] => .error .notFound
  | .error _ :: _ => .error .ioError
  | .ok b :: rest =>
    match ansiStep s arg b with
    | .inr p => .ok p
    | .inl (s2, a2) => cursorPosGo s2 a2 rest

/-- The query string written by cursor_pos before reading. -/
def queryStr : String := "\x1B[6n"

/-- cursor_pos from src/cursor.rs: write the query to the sink, flush, then
parse the reply from the input stream, starting in Norm with an empty
accumulator. Returns the final sink and the (x, y) position or error. -/
def cursor_pos (w : Sink) (input : List (Except Unit Nat)) :
    Sink × Except CursorError (Nat × Nat) :=
  let w1 := Sink.flush (Sink.write w (strBytes queryStr))
  (w1, cursorPosGo .Norm [] input)

/-- Modelled from the spec: the csi! macro (defined outside src/) renders a
control sequence by prefixing its argument with ESC followed by a left
bracket. -/
def csi (s : String) : String := "\x1B[" ++ s

/-- Goto some position, (1,1)-based; c0 is the column, c1 the row (the two
u16 fields of the Rust tuple struct). -/
structure Goto where
  c0 : Nat
  c1 : Nat
deriving DecidableEq

/-- The Default impl for Goto. -/
def Goto.default : Goto := ⟨1, 1⟩

/-- The Display impl for Goto: a debug assertion rejects Goto(0,0), then
the row and column are written as ESC [ row ; col H. The debug flag is
whether debug assertions are compiled in (Rust debug_assert is active only
in non-optimized builds); none models the assertion firing. -/
def Goto.display (debug : Bool) (g : Goto) : Option String :=
  if debug = true ∧ g = ⟨0, 0⟩ then none
  else some (csi (Nat.repr g.c1 ++ ";" ++ Nat.repr g.c0 ++ "H"))

/-- Move cursor left. -/
structure Left where
  c0 : Nat
deriving DecidableEq

/-- The Display impl for Left. -/
def Left.display (v : Left) : String := csi (Nat.repr v.c0 ++ "D")

/-- Move cursor right. -/
structure Right where
  c0 : Nat
deriving DecidableEq

/-- The Display impl for Right. -/
def Right.display (v : Right) : String := csi (Nat.repr v.c0 ++ "C")

/-- Move cursor up. -/
structure Up where
  c0 : Nat
deriving DecidableEq

/-- The Display impl for Up. -/
def Up.display (v : Up) : String := csi (Nat.repr v.c0 ++ "A")

/-- Move cursor down. -/
structure Down where
  c0 : Nat
deriving DecidableEq

/-- The Display impl for Down. -/
def Down.display (v : Down) : String := csi (Nat.repr v.c0 ++ "B")

/-- Hide the cursor; its Display impl is modelled from the spec table for
the derive_csi_sequence! expansion (the macro is defined outside src/). -/
def Hide.display : String := csi "?25l"

/-- Show the cursor; Display modelled as for Hide. -/
def Show.display : String := csi "?25h"

/-- Save the cursor; Display modelled as for Hide. -/
def Save.display : String := csi "s"

/-- Restore the cursor; Display modelled as for Hide. -/
def Restore.display : String := csi "u"

/-!
Helper lemmas about the state machine, the split and the fallible loop.
-/

/-- On an error-free stream the fallible loop agrees with the pure loop:
a position found becomes ok, exhaustion becomes the notFound error. -/
theorem cursorPosGo_map_ok (bs : List Nat) : ∀ (s : AnsiState) (arg : List Char),
    cursorPosGo s arg (bs.map Except.ok)
      = match runBytes s arg bs with
        | some p => Except.ok p
        | none => Except.error CursorError.notFound := by
  induction bs with
  | nil => intro s arg; rfl
  | cons b rest ih =>
    intro s arg
    simp only [List.map_cons, cursorPosGo, runBytes]
    cases h : ansiStep s arg b with
    | inl sa =>
      cases sa with
      | mk s2 a2 => simp [ih]
    | inr p => rfl

/-- The split always produces at least one field. -/
theorem splitSemi_ne_nil (v : List Char) : splitSemi v ≠ [] := by
  cases v with
  | nil => simp [splitSemi]
  | cons c t =>
    simp only [splitSemi]
    cases h : splitSemi t with
    | nil => simp
    | cons f fs =>
      by_cases hc : c = ';' <;> simp [hc]

/-- Splitting at the first semicolon yields the leading field and the split
of the remainder. -/
theorem splitSemi_append (u v : List Char) (hu : ';' ∉ u) :
    splitSemi (u ++ ';' :: v) = u :: splitSemi v := by
  induction u with
  | nil =>
    simp only [List.nil_append, splitSemi]
    cases h : splitSemi v with
    | nil => exact absurd h (splitSemi_ne_nil v)
    | cons f fs => simp [← h]
  | cons c t ih =>
    have hc : c ≠ ';' := by
      intro he; exact hu (he ▸ List.mem_cons_self c t)
    have ht : ';' ∉ t := fun hm => hu (List.mem_cons_of_mem c hm)
    simp only [List.cons_append, splitSemi, List.append_eq]
    rw [ih ht]
    simp [hc]

/-- A semicolon-free string splits into a single field. -/
theorem splitSemi_no_semi (v : List Char) (hv : ';' ∉ v) :
    splitSemi v = [v] := by
  induction v with
  | nil => rfl
  | cons c t ih =>
    have hc : c ≠ ';' := by
      intro he; exact hv (he ▸ List.mem_cons_self c t)
    have ht : ';' ∉ t := fun hm => hv (List.mem_cons_of_mem c hm)
    simp only [splitSemi, ih ht]
    simp [hc]

/-- In the Csi state a digit or semicolon byte is appended to the
accumulator and the state stays Csi. -/
theorem ansiStep_csi_accum (arg : List Char) (b : Nat)
    (hb : (0x30 ≤ b ∧ b ≤ 0x39) ∨ b = 0x3B) :
    ansiStep .Csi arg b = .inl (.Csi, arg ++ [Char.ofNat b]) := by
  have h82 : ¬ b = 0x52 := by omega
  have hlet : ¬ ((0x41 ≤ b ∧ b ≤ 0x5A) ∨ (0x61 ≤ b ∧ b ≤ 0x7A)) := by omega
  simp [ansiStep, h82, hlet, hb]

/-- A run of digit or semicolon bytes in the Csi state accumulates their
characters in order. -/
theorem runBytes_csi_accum (bs : List Nat) : ∀ (arg : List Char) (rest : List Nat),
    (∀ b ∈ bs, (0x30 ≤ b ∧ b ≤ 0x39) ∨ b = 0x3B) →
    runBytes .Csi arg (bs ++ rest) = runBytes .Csi (arg ++ bs.map Char.ofNat) rest := by
  induction bs with
  | nil => intro arg rest _; simp
  | cons b t ih =>
    intro arg rest h
    have hb := h b (List.mem_cons_self b t)
    have ht : ∀ x ∈ t, (0x30 ≤ x ∧ x ≤ 0x39) ∨ x = 0x3B :=
      fun x hx => h x (List.mem_cons_of_mem b hx)
    simp only [List.cons_append, runBytes, ansiStep_csi_accum arg b hb, List.append_eq]
    rw [ih (arg ++ [Char.ofNat b]) rest ht]
    simp

/-- The character of a digit byte is not a semicolon. -/
theorem digitByte_char_ne_semi (b : Nat) (h1 : 0x30 ≤ b) (h2 : b ≤ 0x39) :
    Char.ofNat b ≠ ';' := by
  interval_cases b <;> decide

/-- No semicolon occurs among the characters of digit bytes. -/
theorem semi_not_mem_map (d : List Nat) (hd : ∀ b ∈ d, 0x30 ≤ b ∧ b ≤ 0x39) :
    ';' ∉ d.map Char.ofNat := by
  intro hm
  rcases List.mem_map.mp hm with ⟨b, hb, he⟩
  exact digitByte_char_ne_semi b (hd b hb).1 (hd b hb).2 he

/-- A two-field accumulator parses to (second field, first field). -/
theorem parseReply_two (u v : List Char) (hu : ';' ∉ u) (hv : ';' ∉ v) :
    parseReply (u ++ ';' :: v) = (parseU16 v, parseU16 u) := by
  unfold parseReply
  rw [splitSemi_append u v hu, splitSemi_no_semi v hv]
  rfl

/-- With three or more fields the parse still uses only the first two. -/
theorem parseReply_extra (u v w : List Char) (hu : ';' ∉ u) (hv : ';' ∉ v) :
    parseReply (u ++ ';' :: (v ++ ';' :: w)) = (parseU16 v, parseU16 u) := by
  unfold parseReply
  rw [splitSemi_append u _ hu, splitSemi_append v w hv]
  rfl

/-- The pure loop on a full two-field report ESC [ .. ; .. R returns the
parsed fields with the second one first. -/
theorem runBytes_report (dy dx : List Nat)
    (hy : ∀ b ∈ dy, 0x30 ≤ b ∧ b ≤ 0x39) (hx : ∀ b ∈ dx, 0x30 ≤ b ∧ b ≤ 0x39) :
    runBytes .Norm [] ([0x1B, 0x5B] ++ dy ++ [0x3B] ++ dx ++ [0x52])
      = some (parseU16 (dx.map Char.ofNat), parseU16 (dy.map Char.ofNat)) := by
  have hy2 : ∀ b ∈ dy, (0x30 ≤ b ∧ b ≤ 0x39) ∨ b = 0x3B := fun b hb => Or.inl (hy b hb)
  have hx2 : ∀ b ∈ dx, (0x30 ≤ b ∧ b ≤ 0x39) ∨ b = 0x3B := fun b hb => Or.inl (hx b hb)
  have hsemi : Char.ofNat 0x3B = ';' := by decide
  have e1 : runBytes .Norm [] ([0x1B, 0x5B] ++ dy ++ [0x3B] ++ dx ++ [0x52])
      = runBytes .Csi [] (dy ++ (0x3B :: (dx ++ [0x52]))) := by
    simp [runBytes, ansiStep, List.append_assoc]
  rw [e1, runBytes_csi_accum dy [] _ hy2]
  have e2 : runBytes .Csi ([] ++ dy.map Char.ofNat) (0x3B :: (dx ++ [0x52]))
      = runBytes .Csi (dy.map Char.ofNat ++ [';']) (dx ++ [0x52]) := by
    simp only [runBytes, ansiStep_csi_accum _ 0x3B (Or.inr rfl), hsemi, List.nil_append]
  rw [e2, runBytes_csi_accum dx _ _ hx2]
  have e3 : runBytes .Csi (dy.map Char.ofNat ++ [';'] ++ dx.map Char.ofNat) [0x52]
      = some (parseReply (dy.map Char.ofNat ++ ';' :: dx.map Char.ofNat)) := by
    simp [runBytes, ansiStep, List.append_assoc]
  rw [e3, parseReply_two _ _ (semi_not_mem_map dy hy) (semi_not_mem_map dx hx)]

/-- The pure loop on a report carrying a third field list (which may itself
contain further semicolons) still returns the first two fields. -/
theorem runBytes_report_extra (dy dx dz : List Nat)
    (hy : ∀ b ∈ dy, 0x30 ≤ b ∧ b ≤ 0x39) (hx : ∀ b ∈ dx, 0x30 ≤ b ∧ b ≤ 0x39)
    (hz : ∀ b ∈ dz, (0x30 ≤ b ∧ b ≤ 0x39) ∨ b = 0x3B) :
    runBytes .Norm [] ([0x1B, 0x5B] ++ dy ++ [0x3B] ++ dx ++ [0x3B] ++ dz ++ [0x52])
      = some (parseU16 (dx.map Char.ofNat), parseU16 (dy.map Char.ofNat)) := by
  have hy2 : ∀ b ∈ dy, (0x30 ≤ b ∧ b ≤ 0x39) ∨ b = 0x3B := fun b hb => Or.inl (hy b hb)
  have hx2 : ∀ b ∈ dx, (0x30 ≤ b ∧ b ≤ 0x39) ∨ b = 0x3B := fun b hb => Or.inl (hx b hb)
  have hsemi : Char.ofNat 0x3B = ';' := by decide
  have e1 : runBytes .Norm [] ([0x1B, 0x5B] ++ dy ++ [0x3B] ++ dx ++ [0x3B] ++ dz ++ [0x52])
      = runBytes .Csi [] (dy ++ (0x3B :: (dx ++ (0x3B :: (dz ++ [0x52]))))) := by
    simp [runBytes, ansiStep, List.append_assoc]
  rw [e1, runBytes_csi_accum dy [] _ hy2]
  have e2 : runBytes .Csi ([] ++ dy.map Char.ofNat) (0x3B :: (dx ++ (0x3B :: (dz ++ [0x52]))))
      = runBytes .Csi (dy.map Char.ofNat ++ [';']) (dx ++ (0x3B :: (dz ++ [0x52]))) := by
    simp only [runBytes, ansiStep_csi_accum _ 0x3B (Or.inr rfl), hsemi, List.nil_append]
  rw [e2, runBytes_csi_accum dx _ _ hx2]
  have e3 : runBytes .Csi (dy.map Char.ofNat ++ [';'] ++ dx.map Char.ofNat)
        (0x3B :: (dz ++ [0x52]))
      = runBytes .Csi (dy.map Char.ofNat ++ [';'] ++ dx.map Char.ofNat ++ [';'])
        (dz ++ [0x52]) := by
    simp only [runBytes, ansiStep_csi_accum _ 0x3B (Or.inr rfl), hsemi]
  rw [e3, runBytes_csi_accum dz _ _ hz]
  have e4 : runBytes .Csi
        (dy.map Char.ofNat ++ [';'] ++ dx.map Char.ofNat ++ [';'] ++ dz.map Char.ofNat) [0x52]
      = some (parseReply
        (dy.map Char.ofNat ++ ';' :: (dx.map Char.ofNat ++ ';' :: dz.map Char.ofNat))) := by
    simp [runBytes, ansiStep, List.append_assoc]
  rw [e4, parseReply_extra _ _ _ (semi_not_mem_map dy hy) (semi_not_mem_map dx hx)]

/-!
The claims.
-/

/-- C1: for every R-terminated CSI reply carrying the wire payload
row;column (digit fields dy and dx), cursor_pos returns the position in
(column, row) order, and feeding the byte sequence for ESC[12;34R yields
the position (column=34, row=12). -/
theorem cursor_pos_swaps_row_col (dy dx : List Nat)
    (hy : ∀ b ∈ dy, 0x30 ≤ b ∧ b ≤ 0x39) (hx : ∀ b ∈ dx, 0x30 ≤ b ∧ b ≤ 0x39) :
    (∀ w : Sink,
      (cursor_pos w (([0x1B, 0x5B] ++ dy ++ [0x3B] ++ dx ++ [0x52]).map Except.ok)).2
        = Except.ok (parseU16 (dx.map Char.ofNat), parseU16 (dy.map Char.ofNat)))
    ∧ (∀ w : Sink,
      (cursor_pos w ((strBytes "\x1B[12;34R").map Except.ok)).2 = Except.ok (34, 12)) := by
  constructor
  · intro w
    show cursorPosGo .Norm [] _ = _
    rw [cursorPosGo_map_ok, runBytes_report dy dx hy hx]
  · intro w
    rfl

/-- Witness for C1 at the wire payload 12;34. -/
theorem cursor_pos_swaps_row_col_witness :
    (cursor_pos ⟨[], []⟩ (([0x1B, 0x5B] ++ [0x31, 0x32] ++ [0x3B] ++ [0x33, 0x34]
        ++ [0x52]).map Except.ok)).2
      = Except.ok (parseU16 ([0x33, 0x34].map Char.ofNat), parseU16 ([0x31, 0x32].map Char.ofNat)) :=
  (cursor_pos_swaps_row_col [0x31, 0x32] [0x33, 0x34] (by decide) (by decide)).1 ⟨[], []⟩

/-- C2: on every error-free byte stream that ends before an R-terminated
CSI body is seen (the pure loop finds no position), cursor_pos fails with
the notFound condition, never a partial position, and that condition is
distinct from the ioError one. -/
theorem cursor_pos_eos_not_found (bs : List Nat)
    (h : runBytes .Norm [] bs = none) :
    (∀ w : Sink, (cursor_pos w (bs.map Except.ok)).2 = Except.error CursorError.notFound)
    ∧ CursorError.notFound ≠ CursorError.ioError := by
  refine ⟨fun w => ?_, by decide⟩
  show cursorPosGo .Norm [] _ = _
  rw [cursorPosGo_map_ok, h]

/-- Witness for C2 at the truncated stream ESC[7;3. -/
theorem cursor_pos_eos_not_found_witness :
    (cursor_pos ⟨[], []⟩ ((strBytes "\x1B[7;3").map Except.ok)).2
        = Except.error CursorError.notFound
    ∧ CursorError.notFound ≠ CursorError.ioError :=
  ⟨(cursor_pos_eos_not_found (strBytes "\x1B[7;3") rfl).1 ⟨[], []⟩,
   (cursor_pos_eos_not_found (strBytes "\x1B[7;3") rfl).2⟩

/-- C3: a missing field in an R-terminated reply defaults to 0 instead of
failing: feeding the bytes for ESC[;34R yields row=0, column=34 (the pair
(34, 0)), not a failure. -/
theorem cursor_pos_lenient_empty_field :
    ∀ w : Sink, (cursor_pos w ((strBytes "\x1B[;34R").map Except.ok)).2 = Except.ok (34, 0) :=
  fun _ => rfl

/-- C4: in the Csi state any letter other than R ends the sequence and
returns the parser to Norm without producing a position, so ESC[2J
followed by ESC[5;5R yields (column=5, row=5). -/
theorem csi_other_letter_returns_norm (arg : List Char) (b : Nat)
    (hb : (0x41 ≤ b ∧ b ≤ 0x5A) ∨ (0x61 ≤ b ∧ b ≤ 0x7A)) (hbR : b ≠ 0x52) :
    ansiStep .Csi arg b = .inl (.Norm, arg)
    ∧ (∀ w : Sink,
        (cursor_pos w ((strBytes "\x1B[2J\x1B[5;5R").map Except.ok)).2 = Except.ok (5, 5)) := by
  refine ⟨by simp [ansiStep, hbR, hb], fun w => rfl⟩

/-- Witness for C4 at the letter J with accumulator 2. -/
theorem csi_other_letter_returns_norm_witness :
    ansiStep .Csi ['2'] 0x4A = .inl (.Norm, ['2'])
    ∧ (cursor_pos ⟨[], []⟩ ((strBytes "\x1B[2J\x1B[5;5R").map Except.ok)).2 = Except.ok (5, 5) :=
  ⟨(csi_other_letter_returns_norm ['2'] 0x4A (by decide) (by decide)).1,
   (csi_other_letter_returns_norm ['2'] 0x4A (by decide) (by decide)).2 ⟨[], []⟩⟩

/-- C5: in the Osc state every byte other than BEL (0x07) is ignored and
never appended to the CSI accumulator, BEL returns the parser to Norm, and
a stream holding only ESC]0;title followed by BEL and the stream end yields
the notFound failure. -/
theorem osc_bytes_skipped (arg : List Char) (b : Nat) (hb : b ≠ 0x07) :
    ansiStep .Osc arg b = .inl (.Osc, arg)
    ∧ ansiStep .Osc arg 0x07 = .inl (.Norm, arg)
    ∧ (∀ w : Sink,
        (cursor_pos w ((strBytes "\x1B]0;title\x07").map Except.ok)).2
          = Except.error CursorError.notFound) := by
  refine ⟨by simp [ansiStep, hb], by simp [ansiStep], fun w => rfl⟩

/-- Witness for C5 at the OSC payload byte for the digit 0. -/
theorem osc_bytes_skipped_witness :
    ansiStep .Osc [] 0x30 = .inl (.Osc, [])
    ∧ ansiStep .Osc [] 0x07 = .inl (.Norm, [])
    ∧ (cursor_pos ⟨[], []⟩ ((strBytes "\x1B]0;title\x07").map Except.ok)).2
        = Except.error CursorError.notFound :=
  ⟨(osc_bytes_skipped [] 0x30 (by decide)).1,
   (osc_bytes_skipped [] 0x30 (by decide)).2.1,
   (osc_bytes_skipped [] 0x30 (by decide)).2.2 ⟨[], []⟩⟩

/-- C6 counterexample: the query cursor_pos flushes is not 3 bytes long
(the byte sequence 1B 5B 36 6E the claim itself lists has 4 bytes). -/
theorem cursor_pos_query_length_not_three :
    ((cursor_pos ⟨[], []⟩ []).1.flushed).length ≠ 3 := by decide

/-- C6 amended: before reading any reply byte cursor_pos writes exactly the
4 bytes 1B 5B 36 6E (ESC[6n) and nothing else to the sink and flushes it:
whatever the input stream, everything written sits flushed after the prior
sink contents and the write buffer is empty. -/
theorem cursor_pos_writes_four_byte_query (w : Sink) (input : List (Except Unit Nat)) :
    (cursor_pos w input).1.buffer = []
    ∧ (cursor_pos w input).1.flushed = w.flushed ++ (w.buffer ++ [0x1B, 0x5B, 0x36, 0x6E]) :=
  ⟨rfl, rfl⟩

/-- C7: for every u16 n, rendering Up(n), Down(n), Right(n), Left(n) yields
exactly ESC [ n A, ESC [ n B, ESC [ n C, ESC [ n D, and rendering Hide,
Show, Save, Restore yields exactly ESC[?25l, ESC[?25h, ESC[s, ESC[u, with
no other characters and no failure. -/
theorem formatters_render (n : Nat) (_hn : n ≤ 65535) :
    Up.display ⟨n⟩ = "\x1B[" ++ Nat.repr n ++ "A"
    ∧ Down.display ⟨n⟩ = "\x1B[" ++ Nat.repr n ++ "B"
    ∧ Right.display ⟨n⟩ = "\x1B[" ++ Nat.repr n ++ "C"
    ∧ Left.display ⟨n⟩ = "\x1B[" ++ Nat.repr n ++ "D"
    ∧ Hide.display = "\x1B[?25l"
    ∧ Show.display = "\x1B[?25h"
    ∧ Save.display = "\x1B[s"
    ∧ Restore.display = "\x1B[u" :=
  ⟨rfl, rfl, rfl, rfl, rfl, rfl, rfl, rfl⟩

/-- Witness for C7 at n = 3. -/
theorem formatters_render_witness :
    Up.display ⟨3⟩ = "\x1B[" ++ Nat.repr 3 ++ "A"
    ∧ Down.display ⟨3⟩ = "\x1B[" ++ Nat.repr 3 ++ "B"
    ∧ Right.display ⟨3⟩ = "\x1B[" ++ Nat.repr 3 ++ "C"
    ∧ Left.display ⟨3⟩ = "\x1B[" ++ Nat.repr 3 ++ "D"
    ∧ Hide.display = "\x1B[?25l"
    ∧ Show.display = "\x1B[?25h"
    ∧ Save.display = "\x1B[s"
    ∧ Restore.display = "\x1B[u" :=
  formatters_render 3 (by decide)

/-- C8 counterexample: with debug assertions compiled in, rendering
Goto(0,0) does not yield ESC[0;0H (the assertion fires instead), so the
unrestricted claim fails at the pair (0, 0). -/
theorem goto_zero_zero_debug_not_rendered :
    Goto.display true ⟨0, 0⟩ ≠ some ("\x1B[" ++ Nat.repr 0 ++ ";" ++ Nat.repr 0 ++ "H") := by
  decide

/-- C8 amended: for every u16 pair x, y, rendering Goto(x, y) yields
exactly ESC [ y ; x H (row first, column second) except that Goto(0,0)
with debug assertions enabled fails the debug assertion instead, and the
default constructor of Goto yields Goto(1, 1). -/
theorem goto_render (debug : Bool) (x y : Nat) (_hx : x ≤ 65535) (_hy : y ≤ 65535)
    (h : ¬(debug = true ∧ x = 0 ∧ y = 0)) :
    Goto.display debug ⟨x, y⟩ = some ("\x1B[" ++ Nat.repr y ++ ";" ++ Nat.repr x ++ "H")
    ∧ Goto.default = ⟨1, 1⟩ := by
  constructor
  · have hcond : ¬(debug = true ∧ (⟨x, y⟩ : Goto) = ⟨0, 0⟩) := by
      simp only [Goto.mk.injEq]
      tauto
    simp only [Goto.display]
    rw [if_neg hcond]
    rfl
  · rfl

/-- Witness for C8 at Goto(5, 3) under debug assertions. -/
theorem goto_render_witness :
    Goto.display true ⟨5, 3⟩ = some ("\x1B[" ++ Nat.repr 3 ++ ";" ++ Nat.repr 5 ++ "H")
    ∧ Goto.default = ⟨1, 1⟩ :=
  goto_render true 5 3 (by decide) (by decide) (by decide)

/-- C9 counterexample: without debug assertions (optimized builds) the
guard does not fire when Goto(0,0) is rendered, refuting the claim that it
fires whenever Goto(0,0) is rendered. -/
theorem goto_zero_zero_release_guard_silent :
    Goto.display false ⟨0, 0⟩ ≠ none := by decide

/-- C9 amended: the Goto(0,0) guard is a debug assertion: it fires whenever
Goto(0,0) is rendered with debug assertions enabled, while without them the
render passes through unguarded and yields ESC[0;0H. -/
theorem goto_zero_zero_guard_debug_only :
    Goto.display true ⟨0, 0⟩ = none
    ∧ Goto.display false ⟨0, 0⟩
        = some ("\x1B[" ++ Nat.repr 0 ++ ";" ++ Nat.repr 0 ++ "H") :=
  ⟨rfl, rfl⟩

/-- C10: when an R-terminated payload carries three or more fields (the
trailing bytes dz may themselves hold further semicolons), only the first
two fields are used: the reply parses to their values rather than failing,
and feeding the bytes for ESC[1;2;3R yields (column=2, row=1). -/
theorem cursor_pos_extra_fields_ignored (dy dx dz : List Nat)
    (hy : ∀ b ∈ dy, 0x30 ≤ b ∧ b ≤ 0x39) (hx : ∀ b ∈ dx, 0x30 ≤ b ∧ b ≤ 0x39)
    (hz : ∀ b ∈ dz, (0x30 ≤ b ∧ b ≤ 0x39) ∨ b = 0x3B) :
    (∀ w : Sink,
      (cursor_pos w (([0x1B, 0x5B] ++ dy ++ [0x3B] ++ dx ++ [0x3B] ++ dz
          ++ [0x52]).map Except.ok)).2
        = Except.ok (parseU16 (dx.map Char.ofNat), parseU16 (dy.map Char.ofNat)))
    ∧ (∀ w : Sink,
      (cursor_pos w ((strBytes "\x1B[1;2;3R").map Except.ok)).2 = Except.ok (2, 1)) := by
  constructor
  · intro w
    show cursorPosGo .Norm [] _ = _
    rw [cursorPosGo_map_ok, runBytes_report_extra dy dx dz hy hx hz]
  · intro w
    rfl

/-- Witness for C10 at the wire payload 1;2;3. -/
theorem cursor_pos_extra_fields_ignored_witness :
    (cursor_pos ⟨[], []⟩ (([0x1B, 0x5B] ++ [0x31] ++ [0x3B] ++ [0x32] ++ [0x3B] ++ [0x33]
        ++ [0x52]).map Except.ok)).2
      = Except.ok (parseU16 ([0x32].map Char.ofNat), parseU16 ([0x31].map Char.ofNat)) :=
  (cursor_pos_extra_fields_ignored [0x31] [0x32] [0x33]
    (by decide) (by decide) (by decide)).1 ⟨[], []⟩

end Termion
